import Mathlib

/-!
Verification of the price-tracking and alerting subsystem of the shopping
backend: the activity gate, the price simulator, the bounded tracking log,
the watchlist store operations, the watchlist price-drop detector and the
purchase-side alert loop.

Prices and times are modelled as rationals (ℚ); times are seconds.
Randomness is modelled by passing the random draws (`roll`, `drp`, `rise`)
explicitly.  `round(x, n)` is Python's round-half-to-even on decimal digits,
modelled by `rhalf`/`round2`/`round1`.
-/

namespace ShopTrack

/-- Round a rational to the nearest integer, ties to even
(the behaviour of Python's built-in `round`). -/
def rhalf (y : ℚ) : ℤ :=
  let f := ⌊y⌋
  let frac := y - f
  if frac < 1/2 then f
  else if 1/2 < frac then f + 1
  else if f % 2 = 0 then f else f + 1

/-- `round(x, 2)` : round to 2 decimal places, ties to even. -/
def round2 (x : ℚ) : ℚ := (rhalf (x * 100) : ℚ) / 100

/-- `round(x, 1)` : round to 1 decimal place, ties to even. -/
def round1 (x : ℚ) : ℚ := (rhalf (x * 10) : ℚ) / 10

/-! ### Activity gate (tracking_service.py lines 14, 28-36) -/

/-- `INACTIVE_THRESHOLD = timedelta(hours=24)`, in seconds. -/
def INACTIVE_THRESHOLD : ℚ := 86400

/-- `update_activity()`: sets `last_active = datetime.now()`; returns
the new value of `last_active` given the current time. -/
def update_activity (now : ℚ) : ℚ := now

/-- `is_user_active()`: `(datetime.now() - last_active) < INACTIVE_THRESHOLD`. -/
def is_user_active (last_active now : ℚ) : Bool :=
  decide (now - last_active < INACTIVE_THRESHOLD)

/-! ### Price simulator (tracking_service.py lines 39-51)

`_simulate_price_check(current_price)` draws `roll = random.random()`
and, in the two fluctuation branches, a magnitude from `random.uniform`;
the draws are explicit arguments here. -/

/-- `_simulate_price_check`: 65% hold, 23% drop of 1-8%, 12% rise of 1-4%. -/
def simulate_price_check (current_price roll drp rise : ℚ) : ℚ :=
  if roll < 65/100 then current_price
  else if roll < 88/100 then round2 (current_price * (1 - drp))
  else round2 (current_price * (1 + rise))

/-! ### Tracking log (tracking_service.py lines 54-59) -/

/-- `_log(entry)`: append to the tracking log, keep the last 100 entries
(`tracking_log = tracking_log[-100:]` when the length exceeds 100). -/
def log_append {α : Type} (tracking_log : List α) (entry : α) : List α :=
  let l := tracking_log ++ [entry]
  if l.length > 100 then l.drop (l.length - 100) else l

/-! ### Watchlist data model (models.py `WatchlistItem`, storage.py) -/

/-- One `{"price": ..., "date": ...}` observation in a price history. -/
structure PriceEntry where
  price : ℚ
  date : String
deriving DecidableEq, Repr

/-- models.py `WatchlistItem`. -/
structure WatchlistItem where
  product_id : String
  product_name : String
  price : ℚ
  target_price : Option ℚ
  brand : String
  source_url : String
  category : String
  price_history : List PriceEntry
deriving DecidableEq, Repr

/-- watchlist.py `add_to_watchlist(item)`: seed an empty price history
with the item's price at the current time, then append to the list. -/
def add_to_watchlist (watchlist : List WatchlistItem) (item : WatchlistItem)
    (now : String) : List WatchlistItem :=
  let item' :=
    if item.price_history.isEmpty then
      { item with price_history := [⟨item.price, now⟩] }
    else item
  watchlist ++ [item']

/-- storage.py `update_watchlist_price(product_id, new_price)`: for the
first item whose `product_id` matches, append `{new_price, now}` to its
history and set its `price`; then `break`. -/
def update_watchlist_price (watchlist : List WatchlistItem) (product_id : String)
    (new_price : ℚ) (now : String) : List WatchlistItem :=
  match watchlist with
  | [] => []
  | item :: rest =>
    if item.product_id = product_id then
      { item with
        price_history := item.price_history ++ [⟨new_price, now⟩],
        price := new_price } :: rest
    else item :: update_watchlist_price rest product_id new_price now

/-- A public operation on the watchlist store: `POST /watchlist`
(`add_to_watchlist`) or the tracker's `update_watchlist_price`. -/
inductive WatchOp where
  | add (item : WatchlistItem) (now : String)
  | update (product_id : String) (new_price : ℚ) (now : String)

/-- Apply one operation to the watchlist. -/
def applyWatchOp (watchlist : List WatchlistItem) : WatchOp → List WatchlistItem
  | .add item now => add_to_watchlist watchlist item now
  | .update pid np now => update_watchlist_price watchlist pid np now

/-- Apply a sequence of operations starting from the empty watchlist. -/
def applyWatchOps (ops : List WatchOp) : List WatchlistItem :=
  ops.foldl applyWatchOp []

/-- The price of an item's last history entry, if any. -/
def lastHistPrice (item : WatchlistItem) : Option ℚ :=
  item.price_history.getLast?.map PriceEntry.price

/-! ### Price-drop detector (watchlist.py `price_drops`, lines 31-71) -/

/-- The price stored at index `i` of a history (`0` only as the default of
an out-of-range read, which the detector never performs). -/
def priceAt (h : List PriceEntry) (i : Nat) : ℚ :=
  ((h[i]?).map PriceEntry.price).getD 0

/-- One element of the `drops` list built by `price_drops`. -/
structure DropRecord where
  product_id : String
  product_name : String
  current_price : ℚ
  previous_price : ℚ
  original_price : ℚ
  drop_amount : ℚ
  drop_percent : ℚ
  total_savings : ℚ
  target_price : Option ℚ
  hit_target : Bool
  brand : String
  category : String
  alert_level : String
deriving DecidableEq, Repr

/-- The per-item body of the `price_drops` loop: skip histories shorter
than 2, emit a record only when `current < previous`. -/
def detect_drop (item : WatchlistItem) : Option DropRecord :=
  if item.price_history.length < 2 then none
  else
    let current := priceAt item.price_history (item.price_history.length - 1)
    let previous := priceAt item.price_history (item.price_history.length - 2)
    let original := priceAt item.price_history 0
    let target := item.target_price
    if current < previous then
      let drop_amt := previous - current
      let drop_pct := if 0 < previous then drop_amt / previous * 100 else 0
      let total_savings := if current < original then original - current else 0
      let hit_target :=
        match target with
        | some t => decide (current ≤ t)
        | none => false
      some {
        product_id := item.product_id
        product_name := item.product_name
        current_price := current
        previous_price := previous
        original_price := original
        drop_amount := round2 drop_amt
        drop_percent := round1 drop_pct
        total_savings := round2 total_savings
        target_price := target
        hit_target := hit_target
        brand := item.brand
        category := item.category
        alert_level :=
          if 15 ≤ drop_pct ∨ hit_target = true then "high"
          else if 5 ≤ drop_pct then "medium" else "low" }
    else none

/-- Descending-`drop_percent` comparison used by
`drops.sort(key=..., reverse=True)`. -/
def dropLe (a b : DropRecord) : Bool := decide (b.drop_percent ≤ a.drop_percent)

/-- `price_drops`: the sorted `drops` list of the endpoint. -/
def price_drops (watchlist : List WatchlistItem) : List DropRecord :=
  (watchlist.filterMap detect_drop).mergeSort dropLe

/-! ### Purchase tracking loop (tracking_service.py lines 105-165, 185-193) -/

/-- models.py `PurchaseRecord` (fields used by the tracking loop plus the
bookkeeping fields). -/
structure PurchaseRecord where
  order_id : String
  product_id : String
  product_name : String
  price : ℚ
  brand : String
  category : String
  card_nickname : String
  timestamp : String
deriving DecidableEq, Repr

/-- One entry of `purchase_price_alerts`. -/
structure PriceAlert where
  product_id : String
  product_name : String
  purchased_price : ℚ
  current_market_price : ℚ
  savings : ℚ
  drop_percent : ℚ
  timestamp : String
deriving DecidableEq, Repr

/-- The random draws consumed by one `_simulate_price_check` call. -/
structure Draw where
  roll : ℚ
  drp : ℚ
  rise : ℚ
deriving DecidableEq, Repr

/-- `purchase_market_prices.get(pid, default)` on the dict, modelled as an
association list. -/
def marketGet (mp : List (String × ℚ)) (pid : String) : Option ℚ :=
  (mp.find? (fun e => e.1 = pid)).map Prod.snd

/-- `purchase_market_prices[pid] = v` on the dict. -/
def marketSet (mp : List (String × ℚ)) (pid : String) (v : ℚ) : List (String × ℚ) :=
  match mp with
  | [] => [(pid, v)]
  | e :: rest => if e.1 = pid then (pid, v) :: rest else e :: marketSet rest pid v

/-- Lines 141-146: update the first alert with this `product_id` in place
(`existing.update(alert)` replaces every field), else append. -/
def upsertAlert (alerts : List PriceAlert) (a : PriceAlert) : List PriceAlert :=
  match alerts with
  | [] => [a]
  | x :: rest =>
    if x.product_id = a.product_id then a :: rest
    else x :: upsertAlert rest a

/-- `clear_purchase_alert(product_id)`: keep the alerts whose id differs. -/
def clear_purchase_alert (alerts : List PriceAlert) (product_id : String) :
    List PriceAlert :=
  alerts.filter (fun a => a.product_id ≠ product_id)

/-- Alert list and per-product market prices, the loop's mutable state. -/
structure PurchaseTrackState where
  purchase_price_alerts : List PriceAlert
  purchase_market_prices : List (String × ℚ)
deriving DecidableEq, Repr

/-- The per-purchase body of `purchase_tracking_loop` (lines 121-165,
minus the log writes): seed the market price from the purchase price,
advance it, and on a drop below the purchase price upsert an alert. -/
def processPurchase (st : PurchaseTrackState) (purchase : PurchaseRecord)
    (d : Draw) (now : String) : PurchaseTrackState :=
  let pid := purchase.product_id
  let current_market := (marketGet st.purchase_market_prices pid).getD purchase.price
  let new_market := simulate_price_check current_market d.roll d.drp d.rise
  let mp' := marketSet st.purchase_market_prices pid new_market
  if new_market < purchase.price then
    let drop_amt := round2 (purchase.price - new_market)
    let drop_pct := round1 (drop_amt / purchase.price * 100)
    { purchase_price_alerts :=
        upsertAlert st.purchase_price_alerts
          { product_id := pid
            product_name := purchase.product_name
            purchased_price := purchase.price
            current_market_price := new_market
            savings := drop_amt
            drop_percent := drop_pct
            timestamp := now }
      purchase_market_prices := mp' }
  else { st with purchase_market_prices := mp' }

/-- One tick of the purchase loop over a snapshot of the purchases, each
paired with its random draws. -/
def purchaseTick (st : PurchaseTrackState) (ps : List (PurchaseRecord × Draw))
    (now : String) : PurchaseTrackState :=
  ps.foldl (fun s pd => processPurchase s pd.1 pd.2 now) st

/-- An event acting on the purchase-alert state: a loop tick (a no-op when
the activity gate reports inactive) or an explicit dismissal. -/
inductive PurchaseOp where
  | tick (active : Bool) (ps : List (PurchaseRecord × Draw)) (now : String)
  | clear (product_id : String)

/-- Apply one event. -/
def applyPurchaseOp (st : PurchaseTrackState) : PurchaseOp → PurchaseTrackState
  | .tick active ps now => if active then purchaseTick st ps now else st
  | .clear pid =>
    { st with purchase_price_alerts := clear_purchase_alert st.purchase_price_alerts pid }

/-- Apply a sequence of events from the initial empty state
(`purchase_price_alerts = []`, `purchase_market_prices = {}`). -/
def applyPurchaseOps (ops : List PurchaseOp) : PurchaseTrackState :=
  ops.foldl applyPurchaseOp ⟨[], []⟩

/-- At most one alert per product id. -/
def alertIdsNodup (alerts : List PriceAlert) : Prop :=
  (alerts.map PriceAlert.product_id).Nodup

/-! ### Tracking status (tracking_service.py lines 168-182) -/

/-- `WATCHLIST_CHECK_INTERVAL = 5 * 60` seconds. -/
def WATCHLIST_CHECK_INTERVAL : ℚ := 5 * 60

/-- `PURCHASE_CHECK_INTERVAL = 30 * 60` seconds. -/
def PURCHASE_CHECK_INTERVAL : ℚ := 30 * 60

/-- The dict returned by `get_tracking_status()`; `α` is the type of the
tracking-log entries. -/
structure TrackingStatus (α : Type) where
  user_active : Bool
  tracking_running : Bool
  last_active : ℚ
  inactive_threshold_hours : ℚ
  hours_until_pause : ℚ
  watchlist_interval_minutes : ℚ
  purchase_interval_minutes : ℚ
  recent_activity : List α
  purchase_alerts : List PriceAlert

/-- `get_tracking_status()` as a function of the module state
(`last_active`, `tracking_running`, `tracking_log`,
`purchase_price_alerts`) and the current time. -/
def get_tracking_status {α : Type} (last_active now : ℚ) (tracking_running : Bool)
    (tracking_log : List α) (alerts : List PriceAlert) : TrackingStatus α :=
  let active := is_user_active last_active now
  let time_left := max 0 (INACTIVE_THRESHOLD - (now - last_active))
  { user_active := active
    tracking_running := tracking_running && active
    last_active := last_active
    inactive_threshold_hours := 24
    hours_until_pause := if active then round1 (time_left / 3600) else 0
    watchlist_interval_minutes := WATCHLIST_CHECK_INTERVAL / 60
    purchase_interval_minutes := PURCHASE_CHECK_INTERVAL / 60
    recent_activity :=
      if tracking_log.isEmpty then []
      else tracking_log.drop (tracking_log.length - 20)
    purchase_alerts := alerts }

/-! ### Spec-side views of the detector's inputs -/

/-- The last history entry's price (`item.price_history[-1]["price"]`). -/
def currentPrice (item : WatchlistItem) : ℚ :=
  priceAt item.price_history (item.price_history.length - 1)

/-- The second-to-last history entry's price (`...[-2]["price"]`). -/
def previousPrice (item : WatchlistItem) : ℚ :=
  priceAt item.price_history (item.price_history.length - 2)

/-- The first history entry's price (`...[0]["price"]`). -/
def originalPrice (item : WatchlistItem) : ℚ :=
  priceAt item.price_history 0

/-- The unrounded drop percentage used for the alert level. -/
def rawDropPercent (item : WatchlistItem) : ℚ :=
  if 0 < previousPrice item
  then (previousPrice item - currentPrice item) / previousPrice item * 100 else 0

/-- `hit_target = target is not None and current <= target`. -/
def hitTarget (item : WatchlistItem) : Bool :=
  match item.target_price with
  | some t => decide (currentPrice item ≤ t)
  | none => false

/-- Whether an item's state is consistent: non-empty history whose last
entry's price is the item's `price` field. -/
def priceInv (item : WatchlistItem) : Prop :=
  item.price_history ≠ [] ∧ lastHistPrice item = some item.price

/-- An `add` operation whose item either carries no history (the normal
case, seeded by the endpoint) or already satisfies the price invariant. -/
def addConsistent : WatchOp → Prop
  | .add item _ => item.price_history = [] ∨ lastHistPrice item = some item.price
  | .update _ _ _ => True

/-! ### Concrete inputs used by witnesses and counterexamples -/

/-- Watchlist item whose history drops from 100 to 92.5. -/
def wItemDrop : WatchlistItem :=
  ⟨"w1", "widget", 185/2, none, "b", "u", "c", [⟨100, "t0"⟩, ⟨185/2, "t1"⟩]⟩

/-- Watchlist item whose history drops from 1 to 0.444. -/
def wItemTiny : WatchlistItem :=
  ⟨"w2", "widget", 111/250, none, "b", "u", "c", [⟨1, "t0"⟩, ⟨111/250, "t1"⟩]⟩

/-- Item submitted with an inconsistent non-empty history: `price = 10`
but the (only) history entry records 5. -/
def wItemBad : WatchlistItem :=
  ⟨"b1", "bad", 10, none, "b", "u", "", [⟨5, "t0"⟩]⟩

/-- Item submitted the normal way, with an empty history. -/
def wItemFresh : WatchlistItem :=
  ⟨"g1", "gadget", 10, none, "b", "u", "", []⟩

/-- `wItemFresh` after the add (seeding the history) and one price update. -/
def wItemFreshUpdated : WatchlistItem :=
  ⟨"g1", "gadget", 9, none, "b", "u", "", [⟨10, "t0"⟩, ⟨9, "t1"⟩]⟩

/-- Watchlist item with product id `a`. -/
def wItemA : WatchlistItem := ⟨"a", "itemA", 3, none, "b", "u", "", [⟨3, "t0"⟩]⟩

/-- Watchlist item with product id `b`. -/
def wItemB : WatchlistItem := ⟨"b", "itemB", 4, none, "b", "u", "", [⟨4, "t0"⟩]⟩

/-- A purchase, bought at 10. -/
def purch1 : PurchaseRecord := ⟨"o1", "p1", "thing", 10, "b", "c", "card", "t0"⟩

/-- An alert for product `p1`. -/
def alert1 : PriceAlert := ⟨"p1", "thing", 10, 9, 1, 10, "t1"⟩

/-- A later alert for product `p1` with different fields. -/
def alert2 : PriceAlert := ⟨"p1", "thing", 10, 8, 2, 20, "t2"⟩

/-! ### Helper lemmas on rounding -/

theorem rhalf_ge (y : ℚ) : y - 1/2 ≤ (rhalf y : ℚ) := by
  have h1 : ((⌊y⌋ : ℤ) : ℚ) ≤ y := Int.floor_le y
  have h2 : y < (⌊y⌋ : ℚ) + 1 := Int.lt_floor_add_one y
  unfold rhalf
  dsimp only
  split_ifs <;> push_cast <;> linarith

theorem rhalf_le (y : ℚ) : (rhalf y : ℚ) ≤ y + 1/2 := by
  have h1 : ((⌊y⌋ : ℤ) : ℚ) ≤ y := Int.floor_le y
  have h2 : y < (⌊y⌋ : ℚ) + 1 := Int.lt_floor_add_one y
  unfold rhalf
  dsimp only
  split_ifs <;> push_cast <;> linarith

theorem rhalf_nonneg (y : ℚ) (hy : 0 ≤ y) : 0 ≤ rhalf y := by
  have hf : 0 ≤ ⌊y⌋ := Int.le_floor.mpr (by exact_mod_cast hy)
  unfold rhalf
  dsimp only
  split_ifs <;> omega

theorem round2_ge (x : ℚ) : x - 1/200 ≤ round2 x := by
  have := rhalf_ge (x * 100)
  unfold round2
  linarith

theorem round2_le (x : ℚ) : round2 x ≤ x + 1/200 := by
  have := rhalf_le (x * 100)
  unfold round2
  linarith

theorem round1_nonneg (x : ℚ) (hx : 0 ≤ x) : 0 ≤ round1 x := by
  have h : (0 : ℚ) ≤ (rhalf (x * 10) : ℚ) := by
    exact_mod_cast rhalf_nonneg (x * 10) (by linarith)
  unfold round1
  linarith

theorem if_lt_eq_max (a b : ℚ) : (if a < b then b - a else 0) = max 0 (b - a) := by
  split_ifs with h
  · rw [max_eq_right]; linarith
  · rw [max_eq_left]; linarith

/-! ### Claim theorems -/

/-- Claim C5: after every append to the tracking log the log holds at most
100 entries, and the result is the suffix of the appended list obtained by
discarding the oldest entries first, preserving the order of the rest. -/
theorem log_append_bounded {α : Type} (tracking_log : List α) (entry : α) :
    (log_append tracking_log entry).length ≤ 100 ∧
    log_append tracking_log entry =
      (tracking_log ++ [entry]).drop (tracking_log.length + 1 - 100) := by
  unfold log_append
  dsimp only
  have hlen : (tracking_log ++ [entry]).length = tracking_log.length + 1 := by simp
  split_ifs with h
  · rw [hlen] at h
    constructor
    · rw [List.length_drop, hlen]
      omega
    · rw [hlen]
  · rw [hlen] at h
    constructor
    · rw [hlen]
      omega
    · rw [show tracking_log.length + 1 - 100 = 0 from by omega, List.drop_zero]

/-- Claim C6: `is_user_active` returns false exactly when at least the
24-hour threshold has elapsed since the last activity, and returns true
immediately after `update_activity` stamps the current time. -/
theorem activity_gate_spec (last_active now : ℚ) :
    (is_user_active last_active now = false ↔
      INACTIVE_THRESHOLD ≤ now - last_active) ∧
    update_activity now = now ∧
    is_user_active (update_activity now) now = true := by
  refine ⟨?_, rfl, ?_⟩
  · simp [is_user_active, not_lt]
  · norm_num [is_user_active, update_activity, INACTIVE_THRESHOLD]

/-- Claim C7: when the simulated market price for a purchase does not fall
below the purchase price, the per-purchase step of the purchase tracking
loop leaves the alert list completely unchanged. -/
theorem no_auto_clear_on_rise (st : PurchaseTrackState) (purchase : PurchaseRecord)
    (d : Draw) (now : String)
    (h : purchase.price ≤
      simulate_price_check
        ((marketGet st.purchase_market_prices purchase.product_id).getD purchase.price)
        d.roll d.drp d.rise) :
    (processPurchase st purchase d now).purchase_price_alerts =
      st.purchase_price_alerts := by
  unfold processPurchase
  rw [if_neg (not_lt.mpr h)]

/-- Witness for C7 at a concrete state: a hold roll keeps the price at the
purchase price and the (empty) alert list is untouched. -/
theorem no_auto_clear_on_rise_witness :
    (processPurchase ⟨[], []⟩ purch1 ⟨0, 1/100, 1/100⟩ "t9").purchase_price_alerts = [] :=
  no_auto_clear_on_rise ⟨[], []⟩ purch1 ⟨0, 1/100, 1/100⟩ "t9" (by
    norm_num [marketGet, simulate_price_check, purch1])

/-- Claim C10: `get_tracking_status` never reports `tracking_running` true
while `user_active` is false; the reported `tracking_running` is the
conjunction of the loop flag and the activity check, and
`hours_until_pause` is 0 for an inactive user and never negative. -/
theorem tracking_status_spec {α : Type} (last_active now : ℚ) (running : Bool)
    (tracking_log : List α) (alerts : List PriceAlert) :
    ((get_tracking_status last_active now running tracking_log alerts).user_active = false →
      (get_tracking_status last_active now running tracking_log alerts).tracking_running = false) ∧
    (get_tracking_status last_active now running tracking_log alerts).tracking_running =
      (running && is_user_active last_active now) ∧
    ((get_tracking_status last_active now running tracking_log alerts).user_active = false →
      (get_tracking_status last_active now running tracking_log alerts).hours_until_pause = 0) ∧
    0 ≤ (get_tracking_status last_active now running tracking_log alerts).hours_until_pause := by
  refine ⟨?_, rfl, ?_, ?_⟩
  · intro h
    simp only [get_tracking_status] at *
    rw [h, Bool.and_false]
  · intro h
    simp only [get_tracking_status] at *
    rw [h]
    simp
  · simp only [get_tracking_status]
    split_ifs with h
    · apply round1_nonneg
      have : (0 : ℚ) ≤ max 0 (INACTIVE_THRESHOLD - (now - last_active)) := le_max_left 0 _
      positivity
    · exact le_refl 0

/-- Witness for C10 at a concrete inactive state (last active 90000 seconds
before `now`): running flag is on, but the status reports not running and
zero hours until pause. -/
theorem tracking_status_spec_witness :
    (get_tracking_status (α := Unit) 0 90000 true [] []).tracking_running = false ∧
    (get_tracking_status (α := Unit) 0 90000 true [] []).hours_until_pause = 0 := by
  have hinactive : (get_tracking_status (α := Unit) 0 90000 true [] []).user_active = false := by
    simp only [get_tracking_status, is_user_active, INACTIVE_THRESHOLD]
    norm_num
  exact ⟨(tracking_status_spec 0 90000 true [] []).1 hinactive,
    (tracking_status_spec 0 90000 true [] []).2.2.1 hinactive⟩

/-- Claim C4 counterexample: with price 0.1, a drop roll and the maximal
8% drop, the rounded result 0.09 falls strictly below 0.92 * 0.1 = 0.092;
and with a hold roll the result keeps all four decimals of the input, so
it is not a 2-decimal value (its 2-decimal rounding 0.08 is below it). -/
theorem simulate_price_claim_counterexample :
    simulate_price_check (1/10) (7/10) (8/100) (2/100) = 9/100 ∧
    (9/100 : ℚ) < 92/100 * (1/10) ∧
    simulate_price_check (823/10000) (1/10) (2/100) (2/100) = 823/10000 ∧
    round2 (823/10000) = 8/100 ∧
    (8/100 : ℚ) < 823/10000 := by
  refine ⟨?_, by norm_num, ?_, ?_, by norm_num⟩
  · unfold simulate_price_check round2 rhalf
    norm_num
  · unfold simulate_price_check
    norm_num
  · unfold round2 rhalf
    norm_num

/-- Claim C4 (amended): for positive price `p` and draws in their ranges,
the simulated price stays within `[0.92p - 0.005, 1.04p + 0.005]` (the
0.005 slack coming from the 2-decimal rounding); a roll below 0.65 keeps
the price exactly, a roll in `[0.65, 0.88)` yields the 1-8% drop rounded
to 2 decimals, and a larger roll the 1-4% rise rounded to 2 decimals. -/
theorem simulate_price_spec (p roll drp rise : ℚ) (hp : 0 < p)
    (hd1 : 1/100 ≤ drp) (hd2 : drp ≤ 8/100)
    (hr1 : 1/100 ≤ rise) (hr2 : rise ≤ 4/100) :
    (92/100 * p - 1/200 ≤ simulate_price_check p roll drp rise ∧
      simulate_price_check p roll drp rise ≤ 104/100 * p + 1/200) ∧
    (roll < 65/100 → simulate_price_check p roll drp rise = p) ∧
    (65/100 ≤ roll → roll < 88/100 →
      simulate_price_check p roll drp rise = round2 (p * (1 - drp)) ∧
      ∃ k : ℤ, simulate_price_check p roll drp rise = k / 100) ∧
    (88/100 ≤ roll →
      simulate_price_check p roll drp rise = round2 (p * (1 + rise)) ∧
      ∃ k : ℤ, simulate_price_check p roll drp rise = k / 100) := by
  unfold simulate_price_check
  split_ifs with h1 h2
  · refine ⟨⟨by nlinarith, by nlinarith⟩, fun _ => rfl, fun hc _ => absurd h1 (not_lt.mpr hc), fun hc => absurd hc (not_le.mpr (h1.trans (by norm_num)))⟩
  · have hge := round2_ge (p * (1 - drp))
    have hle := round2_le (p * (1 - drp))
    have hm1 : p * drp ≤ p * (8/100) := mul_le_mul_of_nonneg_left hd2 hp.le
    have hm2 : p * (1/100) ≤ p * drp := mul_le_mul_of_nonneg_left hd1 hp.le
    refine ⟨⟨by nlinarith, by nlinarith⟩,
      fun hc => absurd hc h1,
      fun _ _ => ⟨rfl, ⟨rhalf (p * (1 - drp) * 100), rfl⟩⟩,
      fun hc => absurd hc (not_le.mpr h2)⟩
  · have hge := round2_ge (p * (1 + rise))
    have hle := round2_le (p * (1 + rise))
    have hm1 : p * rise ≤ p * (4/100) := mul_le_mul_of_nonneg_left hr2 hp.le
    have hm2 : p * (1/100) ≤ p * rise := mul_le_mul_of_nonneg_left hr1 hp.le
    refine ⟨⟨by nlinarith, by nlinarith⟩,
      fun hc => absurd hc h1,
      fun _ hc => absurd hc h2,
      fun _ => ⟨rfl, ⟨rhalf (p * (1 + rise) * 100), rfl⟩⟩⟩

/-- Witness for C4 at price 1 with a hold roll: the result stays within
the (slackened) band. -/
theorem simulate_price_spec_witness :
    92/100 * (1 : ℚ) - 1/200 ≤ simulate_price_check 1 0 (1/100) (1/100) ∧
    simulate_price_check 1 0 (1/100) (1/100) ≤ 104/100 * (1 : ℚ) + 1/200 :=
  (simulate_price_spec 1 0 (1/100) (1/100) (by norm_num) (by norm_num)
    (by norm_num) (by norm_num) (by norm_num)).1

/-- Claim C1 counterexample: for the history 1 → 0.444 the detector emits
the record with `drop_amount` 0.56, the 2-decimal rounding of
`previous - current = 0.556`, strictly above the exact difference — so the
emitted `drop_amount` is not `previous - current`. -/
theorem detect_drop_claim_counterexample :
    (detect_drop wItemTiny).map DropRecord.drop_amount = some (56/100) ∧
    previousPrice wItemTiny - currentPrice wItemTiny = 556/1000 ∧
    (556/1000 : ℚ) < 56/100 := by
  refine ⟨?_, ?_, by norm_num⟩
  · unfold wItemTiny detect_drop priceAt round2 rhalf
    norm_num
  · unfold wItemTiny previousPrice currentPrice priceAt
    norm_num

/-- Claim C1 (amended): histories shorter than 2 produce no record; the
reported `hit_target` is true exactly when a target is set and met; and
for `current < previous` the detector emits exactly one record whose
monetary fields carry Python's rounding — `drop_amount` is
`round2 (previous - current)`, `drop_percent` is `round1` of the raw
percentage (0 when `previous ≤ 0`), `total_savings` is
`round2 (max 0 (original - current))` — while the alert level is computed
from the unrounded percentage: high iff it is ≥ 15 or the target was hit,
else medium iff ≥ 5, else low. -/
theorem detect_drop_spec (item : WatchlistItem) :
    (item.price_history.length < 2 → detect_drop item = none) ∧
    (hitTarget item = true ↔ ∃ t, item.target_price = some t ∧ currentPrice item ≤ t) ∧
    (2 ≤ item.price_history.length → currentPrice item < previousPrice item →
      detect_drop item = some {
        product_id := item.product_id
        product_name := item.product_name
        current_price := currentPrice item
        previous_price := previousPrice item
        original_price := originalPrice item
        drop_amount := round2 (previousPrice item - currentPrice item)
        drop_percent := round1 (rawDropPercent item)
        total_savings := round2 (max 0 (originalPrice item - currentPrice item))
        target_price := item.target_price
        hit_target := hitTarget item
        brand := item.brand
        category := item.category
        alert_level :=
          if 15 ≤ rawDropPercent item ∨ hitTarget item = true then "high"
          else if 5 ≤ rawDropPercent item then "medium" else "low" }) := by
  refine ⟨?_, ?_, ?_⟩
  · intro h
    unfold detect_drop
    rw [if_pos h]
  · unfold hitTarget
    cases h : item.target_price with
    | none => simp
    | some t => simp
  · intro h2 hlt
    unfold currentPrice previousPrice at hlt
    unfold detect_drop
    rw [if_neg (by omega : ¬ item.price_history.length < 2)]
    dsimp only
    rw [if_pos hlt]
    unfold hitTarget rawDropPercent currentPrice previousPrice originalPrice
    rw [if_lt_eq_max]

/-- Witness for C1 on the 100 → 92.5 history: a 7.5% drop with a
`medium` alert. -/
theorem detect_drop_spec_witness :
    detect_drop wItemDrop = some
      { product_id := "w1", product_name := "widget", current_price := 185/2,
        previous_price := 100, original_price := 100, drop_amount := 15/2,
        drop_percent := 15/2, total_savings := 15/2, target_price := none,
        hit_target := false, brand := "b", category := "c",
        alert_level := "medium" } := by
  have h := (detect_drop_spec wItemDrop).2.2
    (by norm_num [wItemDrop])
    (by norm_num [wItemDrop, currentPrice, previousPrice, priceAt])
  rw [h]
  simp only [Option.some.injEq, DropRecord.mk.injEq]
  norm_num [wItemDrop, currentPrice, previousPrice, originalPrice,
    rawDropPercent, hitTarget, priceAt, round2, round1, rhalf]

/-- Claim C8: the list of drop records returned by `price_drops` is
sorted in descending order of `drop_percent`. -/
theorem price_drops_sorted (watchlist : List WatchlistItem) :
    (price_drops watchlist).Pairwise
      (fun a b => b.drop_percent ≤ a.drop_percent) := by
  have h := @List.sorted_mergeSort DropRecord dropLe
    (fun a b c hab hbc => by
      simp only [dropLe, decide_eq_true_eq] at *
      exact le_trans hbc hab)
    (fun a b => by
      simp only [dropLe, Bool.or_eq_true, decide_eq_true_eq]
      exact le_total b.drop_percent a.drop_percent)
    (watchlist.filterMap detect_drop)
  exact h.imp (fun hab => by
    simpa only [dropLe, decide_eq_true_eq] using hab)

/-- Claim C9: `update_watchlist_price` touches at most the first item with
the given product id — when no item matches, the watchlist is returned
unchanged; when the first match is `i`, only `i` is replaced (history
appended, price set) and every other item, including later items with the
same id, is left in place. -/
theorem update_watchlist_price_frame (watchlist : List WatchlistItem)
    (product_id : String) (new_price : ℚ) (now : String) :
    ((∀ i ∈ watchlist, i.product_id ≠ product_id) →
      update_watchlist_price watchlist product_id new_price now = watchlist) ∧
    (∀ (pre post : List WatchlistItem) (i : WatchlistItem),
      watchlist = pre ++ i :: post →
      (∀ j ∈ pre, j.product_id ≠ product_id) →
      i.product_id = product_id →
      update_watchlist_price watchlist product_id new_price now =
        pre ++ { i with
          price_history := i.price_history ++ [⟨new_price, now⟩],
          price := new_price } :: post) := by
  constructor
  · intro hnone
    induction watchlist with
    | nil => rfl
    | cons x rest ih =>
      unfold update_watchlist_price
      rw [if_neg (hnone x (List.mem_cons_self x rest))]
      rw [ih (fun j hj => hnone j (List.mem_cons_of_mem x hj))]
  · intro pre post i hsplit hpre hi
    subst hsplit
    induction pre with
    | nil =>
      unfold update_watchlist_price
      simp only [List.nil_append]
      rw [if_pos hi]
    | cons x rest ih =>
      unfold update_watchlist_price
      simp only [List.cons_append]
      rw [if_neg (hpre x (List.mem_cons_self x rest))]
      rw [ih (fun j hj => hpre j (List.mem_cons_of_mem x hj))]

/-- Witness for C9: updating id `b` in the two-item watchlist rewrites
only the second item; updating an absent id `z` changes nothing. -/
theorem update_watchlist_price_frame_witness :
    update_watchlist_price [wItemA] "z" 5 "t" = [wItemA] ∧
    update_watchlist_price [wItemA, wItemB] "b" 5 "t" =
      [wItemA, { wItemB with
        price_history := wItemB.price_history ++ [⟨5, "t"⟩], price := 5 }] :=
  ⟨(update_watchlist_price_frame [wItemA] "z" 5 "t").1
      (by simp [wItemA]),
    (update_watchlist_price_frame [wItemA, wItemB] "b" 5 "t").2
      [wItemA] [] wItemB rfl (by simp [wItemA]) rfl⟩

/-! ### Watchlist invariant (C2) -/

theorem mem_update_watchlist_price {watchlist : List WatchlistItem}
    {product_id : String} {new_price : ℚ} {now : String} {j : WatchlistItem}
    (hj : j ∈ update_watchlist_price watchlist product_id new_price now) :
    j ∈ watchlist ∨ ∃ i ∈ watchlist,
      j = { i with
            price_history := i.price_history ++ [⟨new_price, now⟩],
            price := new_price } := by
  induction watchlist with
  | nil => simp [update_watchlist_price] at hj
  | cons x rest ih =>
    unfold update_watchlist_price at hj
    by_cases hx : x.product_id = product_id
    · rw [if_pos hx] at hj
      rcases List.mem_cons.mp hj with h | h
      · exact Or.inr ⟨x, List.mem_cons_self x rest, h⟩
      · exact Or.inl (List.mem_cons_of_mem x h)
    · rw [if_neg hx] at hj
      rcases List.mem_cons.mp hj with h | h
      · exact Or.inl (h ▸ List.mem_cons_self x rest)
      · rcases ih h with h' | ⟨i, hi, hji⟩
        · exact Or.inl (List.mem_cons_of_mem x h')
        · exact Or.inr ⟨i, List.mem_cons_of_mem x hi, hji⟩

theorem priceInv_updated (i : WatchlistItem) (new_price : ℚ) (now : String) :
    priceInv { i with
      price_history := i.price_history ++ [⟨new_price, now⟩],
      price := new_price } := by
  constructor
  · simp
  · unfold lastHistPrice
    simp [List.getLast?_concat]

theorem nonempty_after_ops (ops : List WatchOp) (watchlist : List WatchlistItem)
    (hwl : ∀ i ∈ watchlist, i.price_history ≠ []) :
    ∀ i ∈ ops.foldl applyWatchOp watchlist, i.price_history ≠ [] := by
  induction ops generalizing watchlist with
  | nil => exact hwl
  | cons op rest ih =>
    rw [List.foldl_cons]
    apply ih
    intro i hi
    cases op with
    | add item now =>
      simp only [applyWatchOp, add_to_watchlist] at hi
      rcases List.mem_append.mp hi with h | h
      · exact hwl i h
      · rcases List.mem_singleton.mp h with rfl
        split_ifs with hemp
        · simp
        · intro hcontra
          exact hemp (by simp [hcontra])
    | update pid np pnow =>
      simp only [applyWatchOp] at hi
      rcases mem_update_watchlist_price hi with h | ⟨i', _, rfl⟩
      · exact hwl i h
      · simp

theorem priceInv_after_ops (ops : List WatchOp) :
    ∀ (watchlist : List WatchlistItem),
    (∀ op ∈ ops, addConsistent op) →
    (∀ i ∈ watchlist, priceInv i) →
    ∀ i ∈ ops.foldl applyWatchOp watchlist, priceInv i := by
  induction ops with
  | nil => exact fun _ _ hwl => hwl
  | cons op rest ih =>
    intro watchlist hops hwl
    rw [List.foldl_cons]
    apply ih _ (fun o ho => hops o (List.mem_cons_of_mem op ho))
    intro i hi
    cases op with
    | add item now =>
      simp only [applyWatchOp, add_to_watchlist] at hi
      rcases List.mem_append.mp hi with h | h
      · exact hwl i h
      · rcases List.mem_singleton.mp h with rfl
        split_ifs with hemp
        · constructor
          · simp
          · simp [lastHistPrice]
        · have hcons := hops _ (List.mem_cons_self _ rest)
          rcases hcons with hempty | hlast
          · exact absurd (by simp [hempty]) hemp
          · exact ⟨fun hcontra => hemp (by simp [hcontra]), hlast⟩
    | update pid np pnow =>
      simp only [applyWatchOp] at hi
      rcases mem_update_watchlist_price hi with h | ⟨i', _, rfl⟩
      · exact hwl i h
      · exact priceInv_updated i' np pnow

/-- Claim C2 counterexample: adding an item whose client-supplied history
records 5 as its last price while its `price` field is 10 puts the store
in a state where the item's price differs from its last history entry. -/
theorem watchlist_price_claim_counterexample :
    applyWatchOps [WatchOp.add wItemBad "t1"] = [wItemBad] ∧
    wItemBad.price = 10 ∧
    lastHistPrice wItemBad = some 5 ∧
    (5 : ℚ) < 10 := by
  refine ⟨?_, rfl, ?_, by norm_num⟩
  · simp [applyWatchOps, applyWatchOp, add_to_watchlist, wItemBad]
  · simp [lastHistPrice, wItemBad]

/-- Claim C2 (amended): after any sequence of adds and price updates from
the empty store, every item's history is non-empty; and provided every
added item either carried no history (the endpoint then seeds it) or
already had its `price` equal to its last history entry's price, every
item's `price` equals the price of its last history entry. -/
theorem watchlist_price_invariant (ops : List WatchOp) :
    (∀ i ∈ applyWatchOps ops, i.price_history ≠ []) ∧
    ((∀ op ∈ ops, addConsistent op) → ∀ i ∈ applyWatchOps ops, priceInv i) :=
  ⟨nonempty_after_ops ops [] (by simp),
    fun hops => priceInv_after_ops ops [] hops (by simp)⟩

/-- Witness for C2: add a fresh item (empty history) and apply one price
update; the resulting item satisfies the invariant. -/
theorem watchlist_price_invariant_witness :
    applyWatchOps [WatchOp.add wItemFresh "t0", WatchOp.update "g1" 9 "t1"] =
      [wItemFreshUpdated] ∧
    priceInv wItemFreshUpdated := by
  have heval : applyWatchOps [WatchOp.add wItemFresh "t0", WatchOp.update "g1" 9 "t1"] =
      [wItemFreshUpdated] := by
    simp [applyWatchOps, applyWatchOp, add_to_watchlist, update_watchlist_price,
      wItemFresh, wItemFreshUpdated]
  refine ⟨heval, ?_⟩
  exact (watchlist_price_invariant
      [WatchOp.add wItemFresh "t0", WatchOp.update "g1" 9 "t1"]).2
    (by
      intro op hop
      rcases List.mem_cons.mp hop with rfl | hop'
      · exact Or.inl rfl
      · rcases List.mem_singleton.mp hop' with rfl
        exact trivial)
    wItemFreshUpdated
    (by rw [heval]; exact List.mem_singleton.mpr rfl)

/-! ### Purchase-alert uniqueness (C3) -/

theorem mem_upsert_ids (l : List PriceAlert) (a : PriceAlert) (q : String)
    (hq : q ∈ (upsertAlert l a).map PriceAlert.product_id) :
    q = a.product_id ∨ q ∈ l.map PriceAlert.product_id := by
  induction l with
  | nil =>
    simp only [upsertAlert, List.map_cons, List.map_nil, List.mem_singleton] at hq
    exact Or.inl hq
  | cons x rest ih =>
    unfold upsertAlert at hq
    by_cases hx : x.product_id = a.product_id
    · rw [if_pos hx] at hq
      rw [List.map_cons] at hq
      rcases List.mem_cons.mp hq with h | h
      · exact Or.inl h
      · exact Or.inr (List.mem_cons_of_mem _ h)
    · rw [if_neg hx] at hq
      rw [List.map_cons] at hq
      rcases List.mem_cons.mp hq with h | h
      · exact Or.inr (h ▸ List.mem_cons_self _ _)
      · rcases ih h with h' | h'
        · exact Or.inl h'
        · exact Or.inr (List.mem_cons_of_mem _ h')

theorem upsert_nodup (l : List PriceAlert) (a : PriceAlert)
    (h : alertIdsNodup l) : alertIdsNodup (upsertAlert l a) := by
  unfold alertIdsNodup at *
  induction l with
  | nil => simp [upsertAlert]
  | cons x rest ih =>
    rw [List.map_cons, List.nodup_cons] at h
    unfold upsertAlert
    by_cases hx : x.product_id = a.product_id
    · rw [if_pos hx]
      rw [List.map_cons, List.nodup_cons]
      exact ⟨hx ▸ h.1, h.2⟩
    · rw [if_neg hx]
      rw [List.map_cons, List.nodup_cons]
      refine ⟨?_, ih h.2⟩
      intro hmem
      rcases mem_upsert_ids rest a x.product_id hmem with h' | h'
      · exact hx h'
      · exact h.1 h'

theorem clear_nodup (l : List PriceAlert) (pid : String)
    (h : alertIdsNodup l) : alertIdsNodup (clear_purchase_alert l pid) :=
  List.Nodup.sublist
    (List.Sublist.map PriceAlert.product_id (List.filter_sublist l)) h

theorem processPurchase_nodup (st : PurchaseTrackState) (p : PurchaseRecord)
    (d : Draw) (now : String) (h : alertIdsNodup st.purchase_price_alerts) :
    alertIdsNodup (processPurchase st p d now).purchase_price_alerts := by
  unfold processPurchase
  dsimp only
  split_ifs with hc
  · exact upsert_nodup _ _ h
  · exact h

theorem purchaseTick_nodup (ps : List (PurchaseRecord × Draw))
    (st : PurchaseTrackState) (now : String)
    (h : alertIdsNodup st.purchase_price_alerts) :
    alertIdsNodup (purchaseTick st ps now).purchase_price_alerts := by
  induction ps generalizing st with
  | nil => exact h
  | cons pd rest ih =>
    unfold purchaseTick
    rw [List.foldl_cons]
    exact ih _ (processPurchase_nodup st pd.1 pd.2 now h)

theorem applyPurchaseOps_nodup (ops : List PurchaseOp) :
    alertIdsNodup (applyPurchaseOps ops).purchase_price_alerts := by
  suffices h : ∀ st : PurchaseTrackState, alertIdsNodup st.purchase_price_alerts →
      alertIdsNodup ((ops.foldl applyPurchaseOp st).purchase_price_alerts) by
    exact h ⟨[], []⟩ (by simp [alertIdsNodup])
  induction ops with
  | nil => exact fun _ h => h
  | cons op rest ih =>
    intro st h
    rw [List.foldl_cons]
    apply ih
    cases op with
    | tick active ps now =>
      simp only [applyPurchaseOp]
      split_ifs
      · exact purchaseTick_nodup ps st now h
      · exact h
    | clear pid =>
      simp only [applyPurchaseOp]
      exact clear_nodup _ _ h

/-- Claim C3: in every state reachable by loop ticks and dismissals the
alert list holds at most one alert per product id; upserting a qualifying
drop for an id that already has an alert replaces that alert's fields in
place (no append, nothing else moved); and `clear_purchase_alert` removes
exactly the alerts with the given id and is a no-op when none matches. -/
theorem purchase_alert_uniqueness :
    (∀ ops : List PurchaseOp,
      alertIdsNodup (applyPurchaseOps ops).purchase_price_alerts) ∧
    (∀ (pre post : List PriceAlert) (x a : PriceAlert),
      (∀ y ∈ pre, y.product_id ≠ a.product_id) → x.product_id = a.product_id →
      upsertAlert (pre ++ x :: post) a = pre ++ a :: post) ∧
    (∀ (alerts : List PriceAlert) (pid : String),
      (∀ x ∈ alerts, x.product_id ≠ pid) →
      clear_purchase_alert alerts pid = alerts) ∧
    (∀ (alerts : List PriceAlert) (pid : String) (x : PriceAlert),
      x ∈ clear_purchase_alert alerts pid → x ∈ alerts ∧ x.product_id ≠ pid) ∧
    (∀ (alerts : List PriceAlert) (pid : String) (x : PriceAlert),
      x ∈ alerts → x.product_id ≠ pid → x ∈ clear_purchase_alert alerts pid) := by
  refine ⟨applyPurchaseOps_nodup, ?_, ?_, ?_, ?_⟩
  · intro pre post x a hpre hx
    induction pre with
    | nil =>
      simp only [List.nil_append]
      unfold upsertAlert
      rw [if_pos hx]
    | cons y rest ih =>
      simp only [List.cons_append]
      unfold upsertAlert
      rw [if_neg (hpre y (List.mem_cons_self y rest))]
      rw [ih (fun j hj => hpre j (List.mem_cons_of_mem y hj))]
  · intro alerts pid h
    unfold clear_purchase_alert
    rw [List.filter_eq_self]
    intro x hx
    simpa using h x hx
  · intro alerts pid x hx
    unfold clear_purchase_alert at hx
    have h := List.mem_filter.mp hx
    exact ⟨h.1, by simpa using h.2⟩
  · intro alerts pid x hx hne
    unfold clear_purchase_alert
    exact List.mem_filter.mpr ⟨hx, by simpa using hne⟩

/-- Witness for C3: one tick over one purchase followed by a dismissal
keeps ids unique; upserting over an existing `p1` alert replaces it
in place; clearing an absent id is a no-op; clearing keeps alerts with
other ids. -/
theorem purchase_alert_uniqueness_witness :
    alertIdsNodup (applyPurchaseOps
      [PurchaseOp.tick true [(purch1, ⟨7/10, 5/100, 1/100⟩)] "t1",
       PurchaseOp.clear "p1"]).purchase_price_alerts ∧
    upsertAlert [alert1] alert2 = [alert2] ∧
    clear_purchase_alert [] "q" = [] ∧
    (alert1 ∈ [alert1] ∧ alert1.product_id ≠ "zz") ∧
    alert1 ∈ clear_purchase_alert [alert1] "zz" := by
  refine ⟨purchase_alert_uniqueness.1 _, ?_, ?_, ?_, ?_⟩
  · exact purchase_alert_uniqueness.2.1 [] [] alert1 alert2 (by simp) rfl
  · exact purchase_alert_uniqueness.2.2.1 [] "q" (by simp)
  · exact purchase_alert_uniqueness.2.2.2.1 [alert1] "zz" alert1
      (by simp [clear_purchase_alert, alert1])
  · exact purchase_alert_uniqueness.2.2.2.2 [alert1] "zz" alert1
      (List.mem_singleton.mpr rfl) (by simp [alert1])

end ShopTrack
